import Mathlib

/-!
Shallow embedding of the ServiceBook Pros backend core (Express/PostgreSQL
server in `index.js`): the pricing/rate-resolution endpoints, the job update
endpoint with its completed-transition service-history rule, and the
WebSocket broadcast messages.  Numeric values (NUMERIC columns, JS numbers)
are modelled as exact rationals; SQL timestamps as naturals.
-/

namespace ServiceBook

/-- A row of `pricebook_items` (columns used by the handlers). -/
structure Item where
  id : Nat
  name : String
  labour_rate : ℚ
  parts_cost : ℚ
  price_tier : Option String
  deriving Repr, DecidableEq

/-- A row of `pricebook_item_versions`. -/
structure RateVersion where
  id : Nat
  item_id : Nat
  effective_at : Nat
  labour_rate : ℚ
  parts_cost : ℚ
  price_tier : Option String
  deriving Repr, DecidableEq

/-- A row of `jobs` (columns used by the handlers). -/
structure Job where
  id : Nat
  customer_id : Nat
  technician_id : Option Nat
  status : String
  scheduled_time : Option Nat
  start_time : Option Nat
  end_time : Option Nat
  notes : Option String
  deriving Repr, DecidableEq

/-- A row of `service_history`. -/
structure HistoryRecord where
  id : Nat
  job_id : Nat
  customer_id : Nat
  performed_at : Nat
  notes : Option String
  deriving Repr, DecidableEq

/-- The database state visible to the embedded handlers.  `nextHistoryId`
models the `service_history.id` SERIAL sequence. -/
structure Db where
  items : List Item
  versions : List RateVersion
  jobs : List Job
  history : List HistoryRecord
  nextHistoryId : Nat
  deriving Repr, DecidableEq

/-- An HTTP error response `res.status(s).json({error: msg})`. -/
structure ErrResp where
  status : Nat
  error : String
  deriving Repr, DecidableEq

/-- `SELECT ... FROM pricebook_items WHERE id = $1` (first matching row). -/
def findItem (db : Db) (i : Nat) : Option Item :=
  db.items.find? (fun it => it.id == i)

/-- `SELECT ... FROM jobs WHERE id = $1` (first matching row). -/
def findJob (db : Db) (i : Nat) : Option Job :=
  db.jobs.find? (fun j => j.id == i)

/-- JS truthiness of an optional string: `undefined`/`null` and `''` are
falsy, every other string is truthy. -/
def strTruthy : Option String → Bool
  | none => false
  | some s => s != ""

/-- JS `a || b` on optional strings (used for `version.price_tier ||
defaultTier`). -/
def jsOrStr (a b : Option String) : Option String :=
  if strTruthy a then a else b

/-- JS `a || d` where `d` is a plain string (used for `... || 'good'`). -/
def jsOrStrD (a : Option String) (d : String) : String :=
  match a with
  | some s => if s = "" then d else s
  | none => d

/-- Accumulator step keeping the strictly latest row seen so far (the first
row wins ties, as a stable descending sort would deliver). -/
def pickLater (acc : Option RateVersion) (v : RateVersion) : Option RateVersion :=
  match acc with
  | none => some v
  | some b => if b.effective_at < v.effective_at then some v else acc

/-- `SELECT labour_rate, parts_cost, price_tier FROM pricebook_item_versions
WHERE item_id = $1 AND effective_at <= NOW() ORDER BY effective_at DESC
LIMIT 1`: among the versions of the item effective by `now`, the one with
the greatest `effective_at`. -/
def latestVersion (versions : List RateVersion) (itemId now : Nat) : Option RateVersion :=
  (versions.filter (fun v => v.item_id == itemId && v.effective_at ≤ now)).foldl
    pickLater none

/-- The rate triple the calculate handler works from after the version
lookup: `labourRate`, `partsCost` and `defaultTier` as of `now`. -/
structure RateResult where
  labourRate : ℚ
  partsCost : ℚ
  tier : Option String
  deriving Repr, DecidableEq

/-- Lines 583-601 of the calculate handler: load the item (404-free: the
handler answers 400 when absent, represented by `none` here), overlay the
latest effective version if any, with the version's tier falling back to
the item's tier (`version.price_tier || defaultTier`). -/
def resolveRate (db : Db) (itemId now : Nat) : Option RateResult :=
  match findItem db itemId with
  | none => none
  | some it =>
    match latestVersion db.versions itemId now with
    | none => some ⟨it.labour_rate, it.parts_cost, it.price_tier⟩
    | some v => some ⟨v.labour_rate, v.parts_cost, jsOrStr v.price_tier it.price_tier⟩

/-- One element of the request body `items` array for `/pricebook/calculate`:
`{item_id, quantity, price_tier}`, each possibly absent. -/
structure Line where
  item_id : Option Nat
  quantity : Option ℚ
  price_tier : Option String
  deriving Repr, DecidableEq

/-- JS truthiness of the `item_id` field (`!item_id` is true for a missing
id and for `0`). -/
def itemIdTruthy : Option Nat → Bool
  | none => false
  | some i => i != 0

/-- The static markup table `{good: 1.0, better: 1.15, best: 1.25}`. -/
def markups (t : String) : Option ℚ :=
  if t = "good" then some 1
  else if t = "better" then some (23 / 20)
  else if t = "best" then some (5 / 4)
  else none

/-- `markups[selectedTier] || 1.0`: unrecognized tiers map to factor 1. -/
def markupFactor (t : String) : ℚ :=
  (markups t).getD 1

/-- One entry pushed onto `breakdown` by the calculate loop. -/
structure BreakdownEntry where
  item_id : Nat
  name : String
  quantity : ℚ
  unit_price : ℚ
  markup_factor : ℚ
  total_price : ℚ
  deriving Repr, DecidableEq

/-- The success body of `/pricebook/calculate`:
`{total_amount, items: breakdown}`. -/
structure CalcResult where
  total_amount : ℚ
  items : List BreakdownEntry
  deriving Repr, DecidableEq

/-- The body of the calculate loop (lines 577-616) for one entry: validate
`item_id`/`quantity`, load the item (400 when absent), overlay the latest
effective version, pick `selectedTier = price_tier || defaultTier || 'good'`,
and price the line. -/
def lineEval (db : Db) (now : Nat) (l : Line) : Except ErrResp BreakdownEntry :=
  if !(itemIdTruthy l.item_id) || l.quantity.isNone then
    .error ⟨400, "Each item must include item_id and quantity"⟩
  else
    match l.item_id, l.quantity with
    | some itemId, some qty =>
      match findItem db itemId with
      | none => .error ⟨400, "Pricebook item " ++ toString itemId ++ " not found"⟩
      | some pbItem =>
        let r :=
          match latestVersion db.versions itemId now with
          | none => RateResult.mk pbItem.labour_rate pbItem.parts_cost pbItem.price_tier
          | some v => RateResult.mk v.labour_rate v.parts_cost (jsOrStr v.price_tier pbItem.price_tier)
        let selectedTier := jsOrStrD l.price_tier (jsOrStrD r.tier "good")
        let mf := markupFactor selectedTier
        let baseUnit := r.labourRate + r.partsCost
        let unitPrice := baseUnit * mf
        let lineTotal := unitPrice * qty
        .ok ⟨itemId, pbItem.name, qty, unitPrice, mf, lineTotal⟩
    | _, _ => .error ⟨400, "Each item must include item_id and quantity"⟩

/-- The calculate loop: accumulates `total` and `breakdown` left to right,
aborting with the first error (the handler `return`s the error response
mid-loop, so no partial result is emitted). -/
def calcLoop (db : Db) (now : Nat) : List Line → ℚ → List BreakdownEntry → Except ErrResp CalcResult
  | [], total, breakdown => .ok ⟨total, breakdown⟩
  | l :: ls, total, breakdown =>
    match lineEval db now l with
    | .error e => .error e
    | .ok entry => calcLoop db now ls (total + entry.total_price) (breakdown ++ [entry])

/-- `POST /pricebook/calculate` (lines 567-622): reject an empty `items`
array, then run the pricing loop as of `now` (the handler's `NOW()`). -/
def calculate (db : Db) (now : Nat) (lines : List Line) : Except ErrResp CalcResult :=
  if lines.isEmpty then .error ⟨400, "items array is required"⟩
  else calcLoop db now lines 0 []

/-- One entry of the success body of `/jobs/:id/estimate`. -/
structure EstimateEntry where
  item_id : Nat
  name : String
  quantity : ℚ
  unit_price : ℚ
  total_price : ℚ
  deriving Repr, DecidableEq

/-- The success body of `/jobs/:id/estimate`. -/
structure EstimateResult where
  job_id : Nat
  total_amount : ℚ
  items : List EstimateEntry
  deriving Repr, DecidableEq

/-- The body of the estimate loop (lines 832-846) for one entry: no version
lookup, no tier, no markup — unit price is base labour plus parts. -/
def estimateLineEval (db : Db) (l : Line) : Except ErrResp EstimateEntry :=
  if !(itemIdTruthy l.item_id) || l.quantity.isNone then
    .error ⟨400, "Each item must include item_id and quantity"⟩
  else
    match l.item_id, l.quantity with
    | some itemId, some qty =>
      match findItem db itemId with
      | none => .error ⟨400, "Pricebook item " ++ toString itemId ++ " not found"⟩
      | some pbItem =>
        let unitPrice := pbItem.labour_rate + pbItem.parts_cost
        .ok ⟨itemId, pbItem.name, qty, unitPrice, unitPrice * qty⟩
    | _, _ => .error ⟨400, "Each item must include item_id and quantity"⟩

/-- The estimate loop, accumulating like the calculate loop. -/
def estimateLoop (db : Db) (jobId : Nat) :
    List Line → ℚ → List EstimateEntry → Except ErrResp EstimateResult
  | [], total, breakdown => .ok ⟨jobId, total, breakdown⟩
  | l :: ls, total, breakdown =>
    match estimateLineEval db l with
    | .error e => .error e
    | .ok entry => estimateLoop db jobId ls (total + entry.total_price) (breakdown ++ [entry])

/-- `POST /jobs/:id/estimate` (lines 818-852): reject an empty `items`
array, 404 when the job is absent, then sum base labour+parts per line.
The handler never reads the clock or the version table. -/
def estimateJob (db : Db) (jobId : Nat) (lines : List Line) : Except ErrResp EstimateResult :=
  if lines.isEmpty then .error ⟨400, "items array is required"⟩
  else
    match findJob db jobId with
    | none => .error ⟨404, "Job not found"⟩
    | some _ => estimateLoop db jobId lines 0 []

/-- A field of the JSON request body for `PUT /jobs/:id`.  `absent` is a key
missing from the body (destructures to `undefined`), `null` an explicit JSON
null; both are sent to PostgreSQL as NULL, so `COALESCE($n, col)` keeps the
old column value for either. -/
inductive PatchField (α : Type) where
  | absent : PatchField α
  | null : PatchField α
  | val : α → PatchField α
  deriving Repr, DecidableEq

/-- The request body of `PUT /jobs/:id` (line 702 destructuring). -/
structure JobPatch where
  customer_id : PatchField Nat
  technician_id : PatchField Nat
  status : PatchField String
  scheduled_time : PatchField Nat
  start_time : PatchField Nat
  end_time : PatchField Nat
  notes : PatchField String
  deriving Repr, DecidableEq

/-- `COALESCE($n, col)` for a NOT NULL column. -/
def coalesce {α : Type} (p : PatchField α) (old : α) : α :=
  match p with
  | .val v => v
  | _ => old

/-- `COALESCE($n, col)` for a nullable column. -/
def coalesceOpt {α : Type} (p : PatchField α) (old : Option α) : Option α :=
  match p with
  | .val v => some v
  | _ => old

/-- The row produced by the `UPDATE jobs SET ... COALESCE ...` statement
(lines 711-723) from the current row and the request body. -/
def applyPatch (patch : JobPatch) (job : Job) : Job :=
  { job with
    customer_id := coalesce patch.customer_id job.customer_id
    technician_id := coalesceOpt patch.technician_id job.technician_id
    status := coalesce patch.status job.status
    scheduled_time := coalesceOpt patch.scheduled_time job.scheduled_time
    start_time := coalesceOpt patch.start_time job.start_time
    end_time := coalesceOpt patch.end_time job.end_time
    notes := coalesceOpt patch.notes job.notes }

/-- The guard `status && status === 'completed'` on the request body field
(line 728): an absent, null or empty status is falsy. -/
def patchStatusIsCompleted : PatchField String → Bool
  | .val s => s == "completed"
  | _ => false

/-- The value bound for the history insert's notes parameter,
`notes || null` (line 735): the body's notes if truthy, else NULL. -/
def patchNotesVal : PatchField String → Option String
  | .val s => if s = "" then none else some s
  | _ => none

/-- Rows of `service_history` for one job
(`SELECT id FROM service_history WHERE job_id = $1`). -/
def historyFor (db : Db) (jobId : Nat) : List HistoryRecord :=
  db.history.filter (fun h => h.job_id == jobId)

/-- Number of history rows for one job. -/
def countHistory (db : Db) (jobId : Nat) : Nat :=
  (historyFor db jobId).length

/-- The `UPDATE jobs ... WHERE id = $8` write: every row with the id is
replaced by the patched row (ids are unique in practice; `RETURNING *`
yields the patched row). -/
def writeJob (db : Db) (jobId : Nat) (updated : Job) : Db :=
  { db with jobs := db.jobs.map (fun j => if j.id == jobId then updated else j) }

/-- `INSERT INTO service_history (job_id, customer_id, performed_at, notes)
VALUES ($1, $2, NOW(), $3)` (lines 733-736). -/
def insertHistory (db : Db) (jobId custId now : Nat) (notes : Option String) : Db :=
  { db with
    history := db.history ++ [⟨db.nextHistoryId, jobId, custId, now, notes⟩]
    nextHistoryId := db.nextHistoryId + 1 }

/-- A JSON value inside a broadcast WebSocket message. -/
inductive JsonVal where
  | s : String → JsonVal
  | jobV : Job → JsonVal
  | invoiceV : Nat → JsonVal
  | paymentV : Nat → JsonVal
  deriving Repr, DecidableEq

/-- A broadcast WebSocket message, as the ordered key/value pairs of the JS
object literal passed to `broadcast` (then `JSON.stringify`-ed). -/
abbrev WsObj : Type := List (String × JsonVal)

deriving instance DecidableEq for Except

/-- `broadcast({ type: 'job.created', job })` (line 677). -/
def jobCreatedMsg (j : Job) : WsObj :=
  [("type", .s "job.created"), ("job", .jobV j)]

/-- `broadcast({ type: 'job.updated', job: updatedJob })` (line 746). -/
def jobUpdatedMsg (j : Job) : WsObj :=
  [("type", .s "job.updated"), ("job", .jobV j)]

/-- `broadcast({ type: 'invoice.created', invoice })` (lines 877 and 934);
the invoice row is abstracted to its id. -/
def invoiceCreatedMsg (invoiceId : Nat) : WsObj :=
  [("type", .s "invoice.created"), ("invoice", .invoiceV invoiceId)]

/-- `broadcast({ type: 'payment.created', payment })` (line 1013); the
payment row is abstracted to its id. -/
def paymentCreatedMsg (paymentId : Nat) : WsObj :=
  [("type", .s "payment.created"), ("payment", .paymentV paymentId)]

/-- `socket.send(JSON.stringify({ type: 'welcome', message: ... }))` on a
new WebSocket connection (line 1267). -/
def welcomeMsg : WsObj :=
  [("type", .s "welcome"),
   ("message", .s "Connected to ServiceBook real-time updates")]

/-- The outcome of one `PUT /jobs/:id` request: the database afterwards, the
HTTP response, the broadcast messages, and the `console.error` side
channel. -/
structure PutJobOut where
  db : Db
  resp : Except ErrResp Job
  events : List WsObj
  log : List String
  deriving DecidableEq

/-- `PUT /jobs/:id` (lines 700-751), run to completion without interleaving.
`insertOk` models whether the guarded service-history block succeeds; when
it throws, the `catch` logs and the handler continues (lines 738-740). -/
def putJob (db : Db) (now jobId : Nat) (patch : JobPatch) (insertOk : Bool) : PutJobOut :=
  match findJob db jobId with
  | none => ⟨db, .error ⟨404, "Job not found"⟩, [], []⟩
  | some job =>
    let updatedJob := applyPatch patch job
    let db1 := writeJob db jobId updatedJob
    if patchStatusIsCompleted patch.status && job.status != "completed" then
      if (historyFor db1 jobId).isEmpty then
        if insertOk then
          ⟨insertHistory db1 jobId updatedJob.customer_id now (patchNotesVal patch.notes),
           .ok updatedJob, [jobUpdatedMsg updatedJob], []⟩
        else
          ⟨db1, .ok updatedJob, [jobUpdatedMsg updatedJob],
           ["Failed to record service history"]⟩
      else ⟨db1, .ok updatedJob, [jobUpdatedMsg updatedJob], []⟩
    else ⟨db1, .ok updatedJob, [jobUpdatedMsg updatedJob], []⟩

/-!
Small-step version of `PUT /jobs/:id` for reasoning about two requests
interleaved by the event loop.  Each phase transition performs exactly one
database query of the handler: the initial `SELECT` of the job, the
`UPDATE`, the history `SELECT`, and the history `INSERT`.
-/

/-- Progress of one in-flight `PUT /jobs/:id` request. -/
inductive Phase where
  | start : Phase
  | loaded : String → Phase
  | updatedPh : String → Job → Phase
  | checked : String → Job → Bool → Phase
  | responded : Except ErrResp Job → Phase
  deriving Repr, DecidableEq

/-- One database query of an in-flight `PUT /jobs/:id` request (history
inserts taken to succeed).  The `UPDATE` step re-reads the current row, as
SQL `COALESCE(\x24n, col)` does. -/
def stepCall (jobId : Nat) (patch : JobPatch) (now : Nat) (db : Db) : Phase → Db × Phase
  | .start =>
    (match findJob db jobId with
     | none => (db, .responded (.error ⟨404, "Job not found"⟩))
     | some job => (db, .loaded job.status))
  | .loaded prev =>
    (match findJob db jobId with
     | none => (db, .responded (.error ⟨404, "Job not found"⟩))
     | some cur =>
       let updatedJob := applyPatch patch cur
       (writeJob db jobId updatedJob, .updatedPh prev updatedJob))
  | .updatedPh prev uj =>
    if patchStatusIsCompleted patch.status && prev != "completed" then
      (db, .checked prev uj (historyFor db jobId).isEmpty)
    else (db, .responded (.ok uj))
  | .checked _ uj histEmpty =>
    if histEmpty then
      (insertHistory db jobId uj.customer_id now (patchNotesVal patch.notes), .responded (.ok uj))
    else (db, .responded (.ok uj))
  | .responded r => (db, .responded r)

/-- Run two interleaved `PUT /jobs/:id` requests A and B on the same job
with the same patch; `true` in the schedule steps A, `false` steps B. -/
def runSchedule (jobId : Nat) (patch : JobPatch) (now : Nat) :
    List Bool → Db → Phase → Phase → Db × Phase × Phase
  | [], db, pa, pb => (db, pa, pb)
  | true :: rest, db, pa, pb =>
    let (db', pa') := stepCall jobId patch now db pa
    runSchedule jobId patch now rest db' pa' pb
  | false :: rest, db, pa, pb =>
    let (db', pb') := stepCall jobId patch now db pb
    runSchedule jobId patch now rest db' pa pb'

/-!
Concrete inputs used by the closed theorems and witnesses below.
-/

/-- A job in status `scheduled`, used for the concurrency scenario. -/
def raceJob : Job := ⟨1, 7, none, "scheduled", none, none, none, none⟩

/-- Initial database for the concurrency scenario: one job, no history. -/
def raceDb : Db := ⟨[], [], [raceJob], [], 0⟩

/-- The patch `{status: "completed"}`. -/
def completePatch : JobPatch :=
  ⟨.absent, .absent, .val "completed", .absent, .absent, .absent, .absent⟩

/-- The interleaving in which both requests pass the history existence check
before either inserts: A and B alternate their four queries. -/
def raceSchedule : List Bool :=
  [true, false, true, false, true, false, true, false]

/-- The schedule that runs request A to completion before request B starts. -/
def seqSchedule : List Bool :=
  [true, true, true, true, false, false, false, false]

/-- An item priced 60 labour / 40 parts with tier `better` (the worked
example of the spec). -/
def exItem : Item := ⟨1, "Drain cleaning", 60, 40, some "better"⟩

/-- Catalog holding only `exItem`, with no rate versions. -/
def exDb : Db := ⟨[exItem], [], [], [], 0⟩

/-- The single line `{item_id: 1, quantity: 2}`. -/
def exLines : List Line := [⟨some 1, some 2, none⟩]

/-- Item and two rate versions (effective at 10 and 20) for the resolution
witness. -/
def verItem : Item := ⟨1, "Inspection", 50, 5, some "good"⟩

/-- First rate version, effective at 10. -/
def verV1 : RateVersion := ⟨11, 1, 10, 70, 30, none⟩

/-- Second rate version, effective at 20. -/
def verV2 : RateVersion := ⟨12, 1, 20, 80, 35, some "best"⟩

/-- Catalog with `verItem` and its two versions. -/
def verDb : Db := ⟨[verItem], [verV1, verV2], [], [], 0⟩

/-- Catalog with no pricebook items at all. -/
def emptyCatalogDb : Db := ⟨[], [], [], [], 0⟩

/-- A single line referencing the nonexistent item 1. -/
def missingLines : List Line := [⟨some 1, some 1, none⟩]

/-- Catalog for the clock-dependence counterexample: base rate 10, one
version effective at 5 with rate 20. -/
def clockDb : Db := ⟨[⟨1, "svc", 10, 0, none⟩], [⟨9, 1, 5, 20, 0, none⟩], [], [], 0⟩

/-- The single line `{item_id: 1, quantity: 1}`. -/
def clockLines : List Line := [⟨some 1, some 1, none⟩]

/-- A completed job used by the event-shape counterexample. -/
def evJob : Job := ⟨3, 7, some 2, "completed", some 1, some 2, some 3, some "done"⟩

/-- A job in status `in_progress` with a technician, for the lifecycle
witnesses. -/
def lifeJob : Job := ⟨4, 9, some 2, "in_progress", some 100, some 110, none, some "old"⟩

/-- Database holding `lifeJob` and no history. -/
def lifeDb : Db := ⟨[], [], [lifeJob], [], 0⟩

/-- The patch `{status: "completed", notes: "all fixed"}`. -/
def lifePatch : JobPatch :=
  ⟨.absent, .absent, .val "completed", .absent, .absent, .absent, .val "all fixed"⟩

/-- A patch carrying explicit nulls for technician and notes. -/
def nullPatch : JobPatch :=
  ⟨.absent, .null, .val "in_progress", .absent, .absent, .absent, .null⟩

/-- `nullPatch` with its nulls dropped. -/
def nullPatchAbs : JobPatch :=
  ⟨.absent, .absent, .val "in_progress", .absent, .absent, .absent, .absent⟩

/-- Replace an explicit null by an absent field. -/
def dropNull {α : Type} : PatchField α → PatchField α
  | .null => .absent
  | x => x

/-- Rewrite every explicit null of a patch into an absent field. -/
def nullToAbsent (p : JobPatch) : JobPatch where
  customer_id := dropNull p.customer_id
  technician_id := dropNull p.technician_id
  status := dropNull p.status
  scheduled_time := dropNull p.scheduled_time
  start_time := dropNull p.start_time
  end_time := dropNull p.end_time
  notes := dropNull p.notes

end ServiceBook

namespace ServiceBook

/-!
## Theorems settling the claims
-/

/-- Claim C1: the spec demands that two concurrent `setJobStatus` calls both
patching status to `completed` (previous status not `completed`) yield
exactly one ServiceHistoryRecord while both return success.  The handler's
check-then-insert runs without a transaction and the schema has no
uniqueness constraint on `service_history.job_id`, so it is not race-safe:
under the interleaving in which both requests run their history `SELECT`
before either `INSERT` (`raceSchedule`), two records are created for job 1
and both requests still respond 200 with the updated job.  Running the
same two requests sequentially (`seqSchedule`) yields one record, matching
the sequential handler `putJob`. -/
theorem completedRaceDoubleInsert :
    countHistory (runSchedule 1 completePatch 5 raceSchedule raceDb .start .start).1 1 = 2 ∧
    (runSchedule 1 completePatch 5 raceSchedule raceDb .start .start).2.1 =
      .responded (.ok { raceJob with status := "completed" }) ∧
    (runSchedule 1 completePatch 5 raceSchedule raceDb .start .start).2.2 =
      .responded (.ok { raceJob with status := "completed" }) ∧
    countHistory (runSchedule 1 completePatch 5 seqSchedule raceDb .start .start).1 1 = 1 ∧
    (runSchedule 1 completePatch 5 seqSchedule raceDb .start .start).1 =
      (putJob (putJob raceDb 5 1 completePatch true).db 5 1 completePatch true).db := by
  decide

/-- Claim C9 (counterexample): the spec says every domain event delivered to
observers has the shape `{type, payload}`.  The `job.updated` event
broadcast by the job update handler carries the entity under the key
`job`, and has no `payload` key at all. -/
theorem jobUpdatedEventLacksPayloadKey :
    (jobUpdatedMsg evJob).map Prod.fst = ["type", "job"] ∧
    (jobUpdatedMsg evJob).lookup "payload" = none ∧
    (jobUpdatedMsg evJob).lookup "job" = some (.jobV evJob) := by
  decide

/-- Claim C9 (amended): every domain event delivered to observers has the
shape `{type, <entity key>}` where type is one of `job.created`,
`job.updated`, `invoice.created`, `payment.created` and the entity is
carried under a key named after the entity (`job`, `invoice` or
`payment`) — not under a `payload` field. -/
theorem domainEventShape (j : Job) (invoiceId paymentId : Nat) :
    jobCreatedMsg j = [("type", .s "job.created"), ("job", .jobV j)] ∧
    jobUpdatedMsg j = [("type", .s "job.updated"), ("job", .jobV j)] ∧
    invoiceCreatedMsg invoiceId =
      [("type", .s "invoice.created"), ("invoice", .invoiceV invoiceId)] ∧
    paymentCreatedMsg paymentId =
      [("type", .s "payment.created"), ("payment", .paymentV paymentId)] ∧
    (jobCreatedMsg j).lookup "payload" = none ∧
    (jobUpdatedMsg j).lookup "payload" = none ∧
    (invoiceCreatedMsg invoiceId).lookup "payload" = none ∧
    (paymentCreatedMsg paymentId).lookup "payload" = none ∧
    (jobUpdatedMsg j).lookup "job" = some (.jobV j) ∧
    (jobCreatedMsg j).lookup "job" = some (.jobV j) ∧
    (invoiceCreatedMsg invoiceId).lookup "invoice" = some (.invoiceV invoiceId) ∧
    (paymentCreatedMsg paymentId).lookup "payment" = some (.paymentV paymentId) := by
  simp [jobCreatedMsg, jobUpdatedMsg, invoiceCreatedMsg, paymentCreatedMsg,
    List.lookup]

/-- Folding `pickLater` from a non-empty base yields an element of the base
or the list that dominates the base and every list element. -/
theorem foldl_pickLater_some (l : List RateVersion) (b : RateVersion) :
    ∃ v, l.foldl pickLater (some b) = some v ∧ (v = b ∨ v ∈ l) ∧
      b.effective_at ≤ v.effective_at ∧ ∀ w ∈ l, w.effective_at ≤ v.effective_at := by
  induction l generalizing b with
  | nil => exact ⟨b, rfl, Or.inl rfl, le_refl _, by simp⟩
  | cons w l ih =>
    by_cases h : b.effective_at < w.effective_at
    · obtain ⟨v, hv, hmem, hle, hall⟩ := ih w
      refine ⟨v, ?_, ?_, le_trans (le_of_lt h) hle, ?_⟩
      · simpa [pickLater, h] using hv
      · rcases hmem with rfl | hm
        · exact Or.inr (List.mem_cons_self _ _)
        · exact Or.inr (List.mem_cons_of_mem _ hm)
      · intro x hx
        rcases List.mem_cons.mp hx with rfl | hx'
        · exact hle
        · exact hall x hx'
    · obtain ⟨v, hv, hmem, hle, hall⟩ := ih b
      refine ⟨v, ?_, ?_, hle, ?_⟩
      · simpa [pickLater, h] using hv
      · rcases hmem with rfl | hm
        · exact Or.inl rfl
        · exact Or.inr (List.mem_cons_of_mem _ hm)
      · intro x hx
        rcases List.mem_cons.mp hx with rfl | hx'
        · exact le_trans (le_of_not_lt h) hle
        · exact hall x hx'

/-- Characterization of the version lookup: `none` exactly when no version
of the item is effective by `now`; a returned version belongs to the item,
is effective by `now`, and dominates every qualifying version. -/
theorem latestVersion_spec (versions : List RateVersion) (itemId now : Nat) :
    (latestVersion versions itemId now = none →
       ∀ w ∈ versions, w.item_id = itemId → ¬ (w.effective_at ≤ now)) ∧
    (∀ v, latestVersion versions itemId now = some v →
       v ∈ versions ∧ v.item_id = itemId ∧ v.effective_at ≤ now ∧
       ∀ w ∈ versions, w.item_id = itemId → w.effective_at ≤ now →
         w.effective_at ≤ v.effective_at) := by
  set p : RateVersion → Bool := fun v => v.item_id == itemId && v.effective_at ≤ now with hp
  have hmemf : ∀ w ∈ versions, w.item_id = itemId → w.effective_at ≤ now →
      w ∈ versions.filter p := by
    intro w hw h1 h2
    refine List.mem_filter.mpr ⟨hw, ?_⟩
    simp [hp, h1, h2]
  constructor
  · intro hnone w hw h1 h2
    have hwf := hmemf w hw h1 h2
    rcases hf : versions.filter p with _ | ⟨x, xs⟩
    · rw [hf] at hwf
      simp at hwf
    · exfalso
      have : latestVersion versions itemId now =
          xs.foldl pickLater (some x) := by
        simp [latestVersion, hf, pickLater]
      obtain ⟨v, hv, -, -, -⟩ := foldl_pickLater_some xs x
      rw [hnone] at this
      rw [hv] at this
      exact Option.noConfusion this
  · intro v hv
    rcases hf : versions.filter p with _ | ⟨x, xs⟩
    · exfalso
      have : latestVersion versions itemId now = none := by
        simp [latestVersion, hf]
      rw [hv] at this
      exact Option.noConfusion this
    · have hlv : latestVersion versions itemId now = xs.foldl pickLater (some x) := by
        simp [latestVersion, hf, pickLater]
      obtain ⟨u, hu, humem, hxu, hall⟩ := foldl_pickLater_some xs x
      have huv : u = v := by
        rw [hlv, hu] at hv
        exact Option.some.inj hv
      subst huv
      have humem' : u ∈ versions.filter p := by
        rw [hf]
        rcases humem with rfl | hm
        · exact List.mem_cons_self _ _
        · exact List.mem_cons_of_mem _ hm
      have hup := List.mem_filter.mp humem'
      have hup2 : u.item_id = itemId ∧ u.effective_at ≤ now := by
        have := hup.2
        simp [hp] at this
        exact this
      refine ⟨hup.1, hup2.1, hup2.2, ?_⟩
      intro w hw h1 h2
      have hwf := hmemf w hw h1 h2
      rw [hf] at hwf
      rcases List.mem_cons.mp hwf with rfl | hw'
      · exact hxu
      · exact hall w hw'

/-- Claim C2: for every item and moment `asOf`, rate resolution selects,
among the item's rate versions with effective-at ≤ asOf, one with the
greatest effective-at, and returns its labour rate, parts cost and tier,
the version's tier falling back to the item's tier when absent; if no
version qualifies it returns the item's own base labour rate, parts cost
and tier. -/
theorem resolveRateCorrect (db : Db) (itemId asOf : Nat) (item : Item)
    (hfind : findItem db itemId = some item) :
    (∀ v, latestVersion db.versions itemId asOf = some v →
       v.item_id = itemId ∧ v.effective_at ≤ asOf ∧
       (∀ w ∈ db.versions, w.item_id = itemId → w.effective_at ≤ asOf →
          w.effective_at ≤ v.effective_at) ∧
       resolveRate db itemId asOf =
         some ⟨v.labour_rate, v.parts_cost, jsOrStr v.price_tier item.price_tier⟩ ∧
       (v.price_tier = none → jsOrStr v.price_tier item.price_tier = item.price_tier)) ∧
    (latestVersion db.versions itemId asOf = none →
       (∀ w ∈ db.versions, w.item_id = itemId → ¬ (w.effective_at ≤ asOf)) ∧
       resolveRate db itemId asOf =
         some ⟨item.labour_rate, item.parts_cost, item.price_tier⟩) := by
  obtain ⟨hnone, hsome⟩ := latestVersion_spec db.versions itemId asOf
  constructor
  · intro v hv
    obtain ⟨-, h1, h2, h3⟩ := hsome v hv
    refine ⟨h1, h2, h3, ?_, ?_⟩
    · simp [resolveRate, hfind, hv]
    · intro hnt
      simp [jsOrStr, strTruthy, hnt]
  · intro hv
    refine ⟨hnone hv, ?_⟩
    simp [resolveRate, hfind, hv]

/-- Witness for C2 at a catalog with two versions (effective 10 and 20) and
`asOf = 15`: the version effective at 10 is selected, its rates are
returned, and its absent tier falls back to the item's tier. -/
theorem resolveRateCorrectWitness :
    findItem verDb 1 = some verItem ∧
    latestVersion verDb.versions 1 15 = some verV1 ∧
    verV1.item_id = 1 ∧ verV1.effective_at ≤ 15 ∧
    resolveRate verDb 1 15 = some ⟨70, 30, some "good"⟩ := by
  have h := (resolveRateCorrect verDb 1 15 verItem (by decide)).1 verV1 (by decide)
  refine ⟨by decide, by decide, h.1, h.2.1, ?_⟩
  have := h.2.2.2.1
  simpa [verV1, verItem, jsOrStr, strTruthy] using this

/-- A successful pricing loop prices each line independently via `lineEval`,
appends the entries in order, and adds each entry's line total to the
accumulator. -/
theorem calcLoop_ok_char (db : Db) (now : Nat) :
    ∀ (ls : List Line) (t : ℚ) (bd : List BreakdownEntry) (r : CalcResult),
      calcLoop db now ls t bd = .ok r →
      ∃ es, List.Forall₂ (fun l e => lineEval db now l = .ok e) ls es ∧
        r.items = bd ++ es ∧
        r.total_amount = t + (es.map BreakdownEntry.total_price).sum := by
  intro ls
  induction ls with
  | nil =>
    intro t bd r h
    simp only [calcLoop] at h
    obtain rfl := Except.ok.inj h
    exact ⟨[], List.Forall₂.nil, by simp, by simp⟩
  | cons l ls ih =>
    intro t bd r h
    simp only [calcLoop] at h
    cases he : lineEval db now l with
    | error e =>
      rw [he] at h
      exact absurd h (by simp)
    | ok entry =>
      rw [he] at h
      obtain ⟨es, hf, hitems, htot⟩ := ih (t + entry.total_price) (bd ++ [entry]) r h
      refine ⟨entry :: es, List.Forall₂.cons he hf, ?_, ?_⟩
      · rw [hitems]
        simp
      · rw [htot]
        simp only [List.map_cons, List.sum_cons]
        ring

/-- A successfully priced line carries a present, truthy item id and a
present quantity; its rates come from `resolveRate` at the call moment;
its markup factor is the table lookup on the effective tier (line tier,
else resolved tier, else `good`); unit price is (labour + parts) times
markup; line total is unit price times quantity. -/
theorem lineEval_ok_char (db : Db) (now : Nat) (l : Line) (e : BreakdownEntry)
    (h : lineEval db now l = .ok e) :
    ∃ itemId qty rr, l.item_id = some itemId ∧ itemId ≠ 0 ∧ l.quantity = some qty ∧
      resolveRate db itemId now = some rr ∧
      e.item_id = itemId ∧ e.quantity = qty ∧
      e.markup_factor = markupFactor (jsOrStrD l.price_tier (jsOrStrD rr.tier "good")) ∧
      e.unit_price = (rr.labourRate + rr.partsCost) * e.markup_factor ∧
      e.total_price = e.unit_price * qty := by
  rcases hid : l.item_id with _ | itemId
  · rw [lineEval, hid] at h
    simp [itemIdTruthy] at h
  rcases hq : l.quantity with _ | qty
  · rw [lineEval, hid, hq] at h
    simp [itemIdTruthy] at h
  by_cases hz : itemId = 0
  · rw [lineEval, hid, hq, hz] at h
    simp [itemIdTruthy] at h
  rw [lineEval, hid, hq] at h
  have hcond : (!itemIdTruthy (some itemId) || (some qty : Option ℚ).isNone) = false := by
    simp [itemIdTruthy, hz]
  rw [hcond] at h
  simp only [Bool.false_eq_true, if_false] at h
  cases hfi : findItem db itemId with
  | none =>
    rw [hfi] at h
    exact absurd h (by simp)
  | some pbItem =>
    rw [hfi] at h
    cases hlv : latestVersion db.versions itemId now with
    | none =>
      rw [hlv] at h
      obtain rfl := Except.ok.inj h
      refine ⟨itemId, qty, ⟨pbItem.labour_rate, pbItem.parts_cost, pbItem.price_tier⟩,
        rfl, hz, rfl, ?_, rfl, rfl, rfl, rfl, rfl⟩
      simp [resolveRate, hfi, hlv]
    | some v =>
      rw [hlv] at h
      obtain rfl := Except.ok.inj h
      refine ⟨itemId, qty, ⟨v.labour_rate, v.parts_cost, jsOrStr v.price_tier pbItem.price_tier⟩,
        rfl, hz, rfl, ?_, rfl, rfl, rfl, rfl, rfl⟩
      simp [resolveRate, hfi, hlv]

/-- Claim C3: for every non-empty list of lines, a successful
`calculatePricing` prices each line with effective tier = line tier, else
resolved tier, else `good`, mapped through the fixed markup table
(good 1.0, better 1.15, best 1.25, anything else 1.0, not an error), with
`unitPrice = (labourRate + partsCost) * markupFactor`,
`lineTotal = unitPrice * quantity` and `totalAmount` the sum of the line
totals; in particular labour 60, parts 40, tier `better`, quantity 2
yields unit price 115, line total 230 and total 230. -/
theorem calculatePricingFormula (db : Db) (now : Nat) (lines : List Line) (r : CalcResult)
    (h : calculate db now lines = .ok r) :
    lines ≠ [] ∧
    (∃ es, List.Forall₂ (fun l e => lineEval db now l = Except.ok e) lines es ∧
       r.items = es ∧
       r.total_amount = (es.map BreakdownEntry.total_price).sum) ∧
    (∀ l e, lineEval db now l = Except.ok e →
       ∃ itemId qty rr, l.item_id = some itemId ∧ itemId ≠ 0 ∧ l.quantity = some qty ∧
         resolveRate db itemId now = some rr ∧
         e.item_id = itemId ∧ e.quantity = qty ∧
         e.markup_factor = markupFactor (jsOrStrD l.price_tier (jsOrStrD rr.tier "good")) ∧
         e.unit_price = (rr.labourRate + rr.partsCost) * e.markup_factor ∧
         e.total_price = e.unit_price * qty) ∧
    markupFactor "good" = 1 ∧
    markupFactor "better" = 23 / 20 ∧
    markupFactor "best" = 5 / 4 ∧
    (∀ s, s ≠ "good" → s ≠ "better" → s ≠ "best" → markupFactor s = 1) ∧
    (∀ s d, s ≠ "" → jsOrStrD (some s) d = s) ∧
    (∀ d, jsOrStrD none d = d) ∧
    calculate exDb 0 exLines =
      .ok ⟨230, [⟨1, "Drain cleaning", 2, 115, 23 / 20, 230⟩]⟩ := by
  refine ⟨?_, ?_, fun l e he => lineEval_ok_char db now l e he, ?_, ?_, ?_, ?_, ?_, ?_, ?_⟩
  · intro hnil
    rw [calculate, hnil] at h
    simp at h
  · rw [calculate] at h
    by_cases hnil : lines.isEmpty
    · rw [if_pos hnil] at h
      exact absurd h (by simp)
    · rw [if_neg hnil] at h
      obtain ⟨es, hf, hitems, htot⟩ := calcLoop_ok_char db now lines 0 [] r h
      exact ⟨es, hf, by simpa using hitems, by simpa using htot⟩
  · simp [markupFactor, markups]
  · simp [markupFactor, markups]
  · simp [markupFactor, markups]
  · intro s h1 h2 h3
    simp [markupFactor, markups, h1, h2, h3]
  · intro s d hs
    simp [jsOrStrD, hs]
  · intro d
    simp [jsOrStrD]
  · simp +decide [calculate, calcLoop, lineEval, findItem, latestVersion, itemIdTruthy,
      jsOrStrD, jsOrStr, strTruthy, markupFactor, markups, List.find?, List.filter,
      exDb, exItem, exLines]
    norm_num

/-- Witness for C3 at the spec's worked example: the call succeeds with
total 230, and the theorem's per-line characterization applies to it. -/
theorem calculatePricingFormulaWitness :
    ∃ es, List.Forall₂
        (fun l e => lineEval exDb 0 l = Except.ok e) exLines es ∧
      (CalcResult.mk 230 [⟨1, "Drain cleaning", 2, 115, 23 / 20, 230⟩]).items = es ∧
      (CalcResult.mk 230 [⟨1, "Drain cleaning", 2, 115, 23 / 20, 230⟩]).total_amount =
        (es.map BreakdownEntry.total_price).sum :=
  (calculatePricingFormula exDb 0 exLines ⟨230, [⟨1, "Drain cleaning", 2, 115, 23 / 20, 230⟩]⟩
    (by
      simp +decide [calculate, calcLoop, lineEval, findItem, latestVersion, itemIdTruthy,
        jsOrStrD, jsOrStr, strTruthy, markupFactor, markups, List.find?, List.filter,
        exDb, exItem, exLines]
      norm_num)).2.1

/-- Every error the pricing loop body produces is an HTTP 400 response. -/
theorem lineEval_error_status (db : Db) (now : Nat) (l : Line) (e : ErrResp)
    (h : lineEval db now l = .error e) : e.status = 400 := by
  rw [lineEval] at h
  split at h
  · obtain rfl := Except.error.inj h
    rfl
  · split at h
    · split at h
      · obtain rfl := Except.error.inj h
        rfl
      · exact absurd h (by simp)
    · obtain rfl := Except.error.inj h
      rfl

/-- A line whose truthy item id references no catalog item makes the loop
body fail with a 400 response. -/
theorem lineEval_missing_error (db : Db) (now : Nat) (l : Line) (itemId : Nat)
    (hid : l.item_id = some itemId) (hz : itemId ≠ 0) (hfi : findItem db itemId = none) :
    ∃ e, lineEval db now l = .error e ∧ e.status = 400 := by
  rcases hq : l.quantity with _ | qty
  · refine ⟨⟨400, "Each item must include item_id and quantity"⟩, ?_, rfl⟩
    rw [lineEval, hid, hq]
    simp [itemIdTruthy]
  · refine ⟨⟨400, "Pricebook item " ++ toString itemId ++ " not found"⟩, ?_, rfl⟩
    rw [lineEval, hid, hq]
    have hcond : (!itemIdTruthy (some itemId) || (some qty : Option ℚ).isNone) = false := by
      simp [itemIdTruthy, hz]
    rw [hcond]
    simp [hfi]

/-- If some line of the batch references a missing item, the loop aborts
with a 400 response (whatever accumulator it has reached). -/
theorem calcLoop_missing_error (db : Db) (now : Nat) :
    ∀ (ls : List Line) (t : ℚ) (bd : List BreakdownEntry),
      (∃ l ∈ ls, ∃ i, l.item_id = some i ∧ i ≠ 0 ∧ findItem db i = none) →
      ∃ e, calcLoop db now ls t bd = .error e ∧ e.status = 400 := by
  intro ls
  induction ls with
  | nil =>
    intro t bd h
    simp at h
  | cons l ls ih =>
    intro t bd h
    cases he : lineEval db now l with
    | error e =>
      exact ⟨e, by simp [calcLoop, he], lineEval_error_status db now l e he⟩
    | ok entry =>
      obtain ⟨l', hl', i, hid, hz, hfi⟩ := h
      rcases List.mem_cons.mp hl' with rfl | hmem
      · obtain ⟨e, he', -⟩ := lineEval_missing_error db now l' i hid hz hfi
        rw [he] at he'
        exact absurd he' (by simp)
      · obtain ⟨e, he', hst⟩ := ih (t + entry.total_price) (bd ++ [entry]) ⟨l', hmem, i, hid, hz, hfi⟩
        exact ⟨e, by simp [calcLoop, he, he'], hst⟩

/-- Claim C4 (counterexample): the spec says a batch referencing a
nonexistent item fails with NotFound; the repository renders NotFound as
HTTP 404 everywhere else (`Job not found`, `Item not found`), but this
branch answers HTTP 400, a validation-style status. -/
theorem calculateMissingItemIs400 :
    calculate emptyCatalogDb 0 missingLines =
      .error ⟨400, "Pricebook item 1 not found"⟩ ∧
    (400 : Nat) ≠ 404 := by
  constructor
  · decide
  · decide

/-- Claim C4 (amended): for every list of lines in which some line's truthy
item id references no existing item, `calculatePricing` fails with an HTTP
400 error response and returns no partial result: the call is atomic
all-or-nothing. -/
theorem calculateMissingItemAllOrNothing (db : Db) (now : Nat) (lines : List Line)
    (h : ∃ l ∈ lines, ∃ i, l.item_id = some i ∧ i ≠ 0 ∧ findItem db i = none) :
    ∃ e, calculate db now lines = .error e ∧ e.status = 400 ∧
      ∀ r, calculate db now lines ≠ .ok r := by
  have hne : lines.isEmpty = false := by
    obtain ⟨l, hl, -⟩ := h
    cases lines
    · simp at hl
    · simp
  obtain ⟨e, he, hst⟩ := calcLoop_missing_error db now lines 0 [] h
  have hcalc : calculate db now lines = .error e := by
    rw [calculate, hne]
    simpa using he
  refine ⟨e, hcalc, hst, ?_⟩
  intro r hr
  rw [hcalc] at hr
  exact absurd hr (by simp)

/-- Witness for the amended C4 at an empty catalog and the line
`{item_id: 1, quantity: 1}`. -/
theorem calculateMissingItemAllOrNothingWitness :
    ∃ e, calculate emptyCatalogDb 0 missingLines = .error e ∧ e.status = 400 ∧
      ∀ r, calculate emptyCatalogDb 0 missingLines ≠ .ok r :=
  calculateMissingItemAllOrNothing emptyCatalogDb 0 missingLines
    ⟨⟨some 1, some 1, none⟩, by decide, 1, rfl, by decide, by decide⟩

/-- A row returned by the job lookup carries the looked-up id. -/
theorem findJob_id (db : Db) (jobId : Nat) (job : Job)
    (h : findJob db jobId = some job) : job.id = jobId := by
  have := List.find?_some h
  simpa using this

/-- Replacing every row of the looked-up id leaves the replacement as the
first (and only) row the lookup returns, provided the lookup succeeded. -/
theorem find_replace (l : List Job) (jobId : Nat) (u : Job) (hu : u.id = jobId) :
    ∀ job, l.find? (fun j => j.id == jobId) = some job →
      (l.map (fun j => if j.id == jobId then u else j)).find? (fun j => j.id == jobId) = some u := by
  induction l with
  | nil =>
    intro job h
    simp at h
  | cons j l ih =>
    intro job h
    by_cases hj : j.id = jobId
    · simp [List.map_cons, hj, List.find?_cons_of_pos, hu]
    · rw [List.find?_cons_of_neg _ (by simp [hj])] at h
      rw [List.map_cons, if_neg (by simp [hj]), List.find?_cons_of_neg _ (by simp [hj])]
      exact ih job h

/-- The job lookup after the `UPDATE` returns the updated row. -/
theorem findJob_writeJob (db : Db) (jobId : Nat) (u job : Job) (hu : u.id = jobId)
    (h : findJob db jobId = some job) :
    findJob (writeJob db jobId u) jobId = some u :=
  find_replace db.jobs jobId u hu job h

/-- The `UPDATE jobs` write leaves the history table untouched. -/
theorem historyFor_writeJob (db : Db) (i jobId : Nat) (u : Job) :
    historyFor (writeJob db i u) jobId = historyFor db jobId := rfl

/-- The history insert leaves the jobs table untouched. -/
theorem findJob_insertHistory (db : Db) (jobId cust now i : Nat) (o : Option String) :
    findJob (insertHistory db jobId cust now o) i = findJob db i := rfl

/-- The inserted history row is appended to the job's history. -/
theorem historyFor_insertHistory_self (db : Db) (jobId cust now : Nat) (o : Option String) :
    historyFor (insertHistory db jobId cust now o) jobId =
      historyFor db jobId ++ [⟨db.nextHistoryId, jobId, cust, now, o⟩] := by
  simp [historyFor, insertHistory, List.filter_append]

/-- Claim C7: for every existing job, `setJobStatus` applies only the fields
present in the patch — every omitted field keeps its previous value — and
responds with the updated job; if the job does not exist the call fails
with 404 and the database is unchanged. -/
theorem setJobStatusFrame (db : Db) (now jobId : Nat) (patch : JobPatch) (insertOk : Bool) :
    (∀ job, findJob db jobId = some job →
       (putJob db now jobId patch insertOk).resp = .ok (applyPatch patch job) ∧
       (patch.customer_id = .absent → (applyPatch patch job).customer_id = job.customer_id) ∧
       (patch.technician_id = .absent → (applyPatch patch job).technician_id = job.technician_id) ∧
       (patch.status = .absent → (applyPatch patch job).status = job.status) ∧
       (patch.scheduled_time = .absent → (applyPatch patch job).scheduled_time = job.scheduled_time) ∧
       (patch.start_time = .absent → (applyPatch patch job).start_time = job.start_time) ∧
       (patch.end_time = .absent → (applyPatch patch job).end_time = job.end_time) ∧
       (patch.notes = .absent → (applyPatch patch job).notes = job.notes)) ∧
    (findJob db jobId = none →
       (putJob db now jobId patch insertOk).db = db ∧
       (putJob db now jobId patch insertOk).resp = .error ⟨404, "Job not found"⟩) := by
  constructor
  · intro job hfind
    refine ⟨?_, ?_, ?_, ?_, ?_, ?_, ?_, ?_⟩
    · simp only [putJob, hfind]
      split_ifs <;> rfl
    all_goals (intro hab; simp [applyPatch, coalesce, coalesceOpt, hab])
  · intro hnone
    constructor <;> simp only [putJob, hnone]

/-- Witness for C7: a patch touching only status and notes leaves the
technician, the customer and the timestamps of the in-progress job
unchanged, and the handler responds with the patched job. -/
theorem setJobStatusFrameWitness :
    (putJob lifeDb 77 4 lifePatch true).resp = .ok (applyPatch lifePatch lifeJob) ∧
    (applyPatch lifePatch lifeJob).technician_id = lifeJob.technician_id ∧
    (applyPatch lifePatch lifeJob).scheduled_time = lifeJob.scheduled_time := by
  have h := (setJobStatusFrame lifeDb 77 4 lifePatch true).1 lifeJob (by decide)
  exact ⟨h.1, h.2.2.1 (by decide), h.2.2.2.2.1 (by decide)⟩

/-- `coalesce` cannot distinguish an explicit null from an absent field. -/
theorem coalesce_dropNull {α : Type} (p : PatchField α) (old : α) :
    coalesce (dropNull p) old = coalesce p old := by
  cases p <;> rfl

/-- `coalesceOpt` cannot distinguish an explicit null from an absent field. -/
theorem coalesceOpt_dropNull {α : Type} (p : PatchField α) (old : Option α) :
    coalesceOpt (dropNull p) old = coalesceOpt p old := by
  cases p <;> rfl

/-- The completed-status guard cannot distinguish null from absent. -/
theorem patchStatusIsCompleted_dropNull (p : PatchField String) :
    patchStatusIsCompleted (dropNull p) = patchStatusIsCompleted p := by
  cases p <;> rfl

/-- The history notes binding cannot distinguish null from absent. -/
theorem patchNotesVal_dropNull (p : PatchField String) :
    patchNotesVal (dropNull p) = patchNotesVal p := by
  cases p <;> rfl

/-- The patched row is the same whether a field is null or absent. -/
theorem applyPatch_nullToAbsent (patch : JobPatch) (job : Job) :
    applyPatch (nullToAbsent patch) job = applyPatch patch job := by
  simp [applyPatch, nullToAbsent, coalesce_dropNull, coalesceOpt_dropNull]

/-- Claim C5: a `setJobStatus` call patching status to `completed` while the
job's previous status was not `completed` creates exactly one
ServiceHistoryRecord for the job, with performed-at the current time and
notes copied from the patch notes; a second identical call creates no
additional record; and sequentially every `setJobStatus` call preserves
"at most one history record per job". -/
theorem setJobStatusSingleHistory (db : Db) (now now2 jobId : Nat) (patch : JobPatch) (job : Job)
    (hfind : findJob db jobId = some job)
    (hprev : job.status ≠ "completed")
    (hstat : patch.status = .val "completed")
    (hnone : countHistory db jobId = 0) :
    countHistory (putJob db now jobId patch true).db jobId = 1 ∧
    historyFor (putJob db now jobId patch true).db jobId =
      [⟨db.nextHistoryId, jobId, (applyPatch patch job).customer_id, now,
        patchNotesVal patch.notes⟩] ∧
    countHistory (putJob (putJob db now jobId patch true).db now2 jobId patch true).db jobId = 1 ∧
    (∀ (db' : Db) (p' : JobPatch) (insertOk' : Bool) (n' : Nat),
       countHistory db' jobId ≤ 1 →
       countHistory (putJob db' n' jobId p' insertOk').db jobId ≤ 1) := by
  have hempty : historyFor db jobId = [] := List.length_eq_zero.mp hnone
  have hc1 : patchStatusIsCompleted patch.status = true := by rw [hstat]; rfl
  have hb : (job.status != "completed") = true := bne_iff_ne.mpr hprev
  have hdb : (putJob db now jobId patch true).db =
      insertHistory (writeJob db jobId (applyPatch patch job)) jobId
        (applyPatch patch job).customer_id now (patchNotesVal patch.notes) := by
    simp only [putJob, hfind, hc1, hb, Bool.and_self, if_true,
      historyFor_writeJob, hempty, List.isEmpty_nil]
  have hcount1 : countHistory (putJob db now jobId patch true).db jobId = 1 := by
    rw [countHistory, hdb, historyFor_insertHistory_self, historyFor_writeJob, hempty]
    rfl
  have hu : (applyPatch patch job).id = jobId := findJob_id db jobId job hfind
  have hfind2 : findJob (putJob db now jobId patch true).db jobId =
      some (applyPatch patch job) := by
    rw [hdb, findJob_insertHistory]
    exact findJob_writeJob db jobId (applyPatch patch job) job hu hfind
  have hstat2 : (applyPatch patch job).status = "completed" := by
    simp [applyPatch, hstat, coalesce]
  refine ⟨hcount1, ?_, ?_, ?_⟩
  · rw [hdb, historyFor_insertHistory_self, historyFor_writeJob, hempty]
    rfl
  · set db1 := (putJob db now jobId patch true).db with hdb1
    simp only [putJob, hfind2, hstat2, bne_self_eq_false, Bool.and_false,
      Bool.false_eq_true, if_false]
    exact hcount1
  · intro db' p' insertOk' n' hle
    cases hf : findJob db' jobId with
    | none => simpa [putJob, hf] using hle
    | some j =>
      simp only [putJob, hf]
      split_ifs with h1 h2 h3
      · rw [historyFor_writeJob] at h2
        have h2' : historyFor db' jobId = [] := List.isEmpty_iff.mp h2
        simp [countHistory, historyFor_insertHistory_self, historyFor_writeJob, h2']
      · simpa [countHistory, historyFor_writeJob] using hle
      · simpa [countHistory, historyFor_writeJob] using hle
      · simpa [countHistory, historyFor_writeJob] using hle

/-- Witness for C5: completing the in-progress job 4 once creates exactly
one history record with the patch notes and the call time; completing it
again adds nothing. -/
theorem setJobStatusSingleHistoryWitness :
    countHistory (putJob lifeDb 55 4 lifePatch true).db 4 = 1 ∧
    historyFor (putJob lifeDb 55 4 lifePatch true).db 4 =
      [⟨0, 4, 9, 55, some "all fixed"⟩] ∧
    countHistory (putJob (putJob lifeDb 55 4 lifePatch true).db 66 4 lifePatch true).db 4 = 1 := by
  have h := setJobStatusSingleHistory lifeDb 55 66 4 lifePatch lifeJob
    (by decide) (by decide) (by decide) (by decide)
  refine ⟨h.1, ?_, h.2.2.1⟩
  have h2 := h.2.1
  simpa [lifeDb, lifeJob, lifePatch, applyPatch, coalesce, coalesceOpt, patchNotesVal] using h2

/-- Claim C6: when a `setJobStatus` call transitions a job into `completed`
and the service-history insert fails, the failure is swallowed: it is
reported only on the log side channel, the response is still success with
the updated job, and the `job.updated` event is still emitted. -/
theorem historyInsertFailureSwallowed (db : Db) (now jobId : Nat) (patch : JobPatch) (job : Job)
    (hfind : findJob db jobId = some job)
    (hprev : job.status ≠ "completed")
    (hstat : patch.status = .val "completed") :
    (∀ insertOk, (putJob db now jobId patch insertOk).resp = .ok (applyPatch patch job)) ∧
    (∀ insertOk, (putJob db now jobId patch insertOk).events =
       [jobUpdatedMsg (applyPatch patch job)]) ∧
    (countHistory db jobId = 0 →
       (putJob db now jobId patch false).log = ["Failed to record service history"] ∧
       (putJob db now jobId patch false).db = writeJob db jobId (applyPatch patch job)) := by
  have hc1 : patchStatusIsCompleted patch.status = true := by rw [hstat]; rfl
  have hb : (job.status != "completed") = true := bne_iff_ne.mpr hprev
  refine ⟨?_, ?_, ?_⟩
  · intro insertOk
    simp only [putJob, hfind]
    split_ifs <;> rfl
  · intro insertOk
    simp only [putJob, hfind]
    split_ifs <;> rfl
  · intro hnone
    have hempty : historyFor db jobId = [] := List.length_eq_zero.mp hnone
    constructor <;>
      simp only [putJob, hfind, hc1, hb, Bool.and_self, if_true,
        historyFor_writeJob, hempty, List.isEmpty_nil, Bool.false_eq_true, if_false]

/-- Witness for C6: completing job 4 with a failing history insert still
responds with the updated job, still broadcasts `job.updated`, logs the
failure, and leaves the history table without a record. -/
theorem historyInsertFailureSwallowedWitness :
    (putJob lifeDb 55 4 lifePatch false).resp = .ok (applyPatch lifePatch lifeJob) ∧
    (putJob lifeDb 55 4 lifePatch false).events =
      [jobUpdatedMsg (applyPatch lifePatch lifeJob)] ∧
    (putJob lifeDb 55 4 lifePatch false).log = ["Failed to record service history"] := by
  have h := historyInsertFailureSwallowed lifeDb 55 4 lifePatch lifeJob
    (by decide) (by decide) (by decide)
  exact ⟨h.1 false, h.2.1 false, (h.2.2 (by decide)).1⟩

/-- Claim C8 (counterexample): the spec says `calculatePricing` yields
identical results for identical inputs against an unchanged catalog
regardless of when each call is made.  With the catalog unchanged (base
rate 10 and one rate version of rate 20 effective at time 5), the same
request priced at time 3 and at time 7 yields totals 10 and 20: the
handler reads the clock through its `effective_at <= NOW()` filter. -/
theorem calculateClockDependent :
    calculate clockDb 3 clockLines = .ok ⟨10, [⟨1, "svc", 1, 10, 1, 10⟩]⟩ ∧
    calculate clockDb 7 clockLines = .ok ⟨20, [⟨1, "svc", 1, 20, 1, 20⟩]⟩ ∧
    calculate clockDb 3 clockLines ≠ calculate clockDb 7 clockLines := by
  have h3 : calculate clockDb 3 clockLines = .ok ⟨10, [⟨1, "svc", 1, 10, 1, 10⟩]⟩ := by
    simp +decide [calculate, calcLoop, lineEval, findItem, latestVersion, pickLater,
      itemIdTruthy, jsOrStrD, jsOrStr, strTruthy, markupFactor, markups,
      List.find?, List.filter, clockDb, clockLines]
  have h7 : calculate clockDb 7 clockLines = .ok ⟨20, [⟨1, "svc", 1, 20, 1, 20⟩]⟩ := by
    simp +decide [calculate, calcLoop, lineEval, findItem, latestVersion, pickLater,
      itemIdTruthy, jsOrStrD, jsOrStr, strTruthy, markupFactor, markups,
      List.find?, List.filter, clockDb, clockLines]
  refine ⟨h3, h7, ?_⟩
  rw [h3, h7]
  intro h
  have h' : (10 : ℚ) = 20 := congrArg CalcResult.total_amount (Except.ok.inj h)
  norm_num at h'

/-- Claim C8 (amended): `calculatePricing` and `estimateJob` are pure,
read-only functions of the catalog and the clock: identical inputs
against an unchanged catalog yield identical results whenever no rate
version's effective-at moment separates the two call times (in
particular, at the same clock reading).  `estimateJob` never reads the
clock.  `calculatePricing`'s result may change once the clock passes a
version's effective-at, even with the catalog unchanged. -/
theorem calculateClockCongruence (db : Db) (lines : List Line) (now1 now2 : Nat)
    (h : ∀ v ∈ db.versions, (v.effective_at ≤ now1 ↔ v.effective_at ≤ now2)) :
    calculate db now1 lines = calculate db now2 lines := by
  have hfil : ∀ itemId : Nat,
      db.versions.filter (fun v => v.item_id == itemId && v.effective_at ≤ now1) =
      db.versions.filter (fun v => v.item_id == itemId && v.effective_at ≤ now2) := by
    intro itemId
    apply List.filter_congr
    intro v hv
    rw [decide_eq_decide.mpr (h v hv)]
  have hlv : ∀ itemId : Nat,
      latestVersion db.versions itemId now1 = latestVersion db.versions itemId now2 := by
    intro itemId
    rw [latestVersion, latestVersion, hfil itemId]
  have hline : ∀ l, lineEval db now1 l = lineEval db now2 l := by
    intro l
    rcases hid : l.item_id with _ | itemId
    · rw [lineEval, lineEval, hid]
    rcases hq : l.quantity with _ | qty
    · rw [lineEval, lineEval, hid, hq]
    rw [lineEval, lineEval, hid, hq]
    simp only [hlv itemId]
  have hloop : ∀ (ls : List Line) (t : ℚ) (bd : List BreakdownEntry),
      calcLoop db now1 ls t bd = calcLoop db now2 ls t bd := by
    intro ls
    induction ls with
    | nil => intro t bd; rfl
    | cons l ls ih =>
      intro t bd
      rw [calcLoop, calcLoop, hline l]
      cases he : lineEval db now2 l with
      | error e => rfl
      | ok entry => exact ih _ _
  rw [calculate, calculate]
  by_cases hk : lines.isEmpty
  · rw [if_pos hk, if_pos hk]
  · rw [if_neg hk, if_neg hk]
    exact hloop lines 0 []

/-- Witness for the amended C8: pricing at times 3 and 4 agrees because the
only version boundary (effective at 5) lies beyond both. -/
theorem calculateClockCongruenceWitness :
    calculate clockDb 3 clockLines = calculate clockDb 4 clockLines :=
  calculateClockCongruence clockDb clockLines 3 4 (by decide)

/-- Claim C10: a field present in the patch with a null value is treated
exactly like an omitted field — the whole handler behaves identically on
the two patches, and a null field keeps the job's previous value, so no
job field can be cleared back to null through `setJobStatus`. -/
theorem nullPatchFieldTreatedAsOmitted (db : Db) (now jobId : Nat) (patch : JobPatch) (insertOk : Bool) :
    putJob db now jobId (nullToAbsent patch) insertOk = putJob db now jobId patch insertOk ∧
    (∀ job, patch.customer_id = .null → (applyPatch patch job).customer_id = job.customer_id) ∧
    (∀ job, patch.technician_id = .null → (applyPatch patch job).technician_id = job.technician_id) ∧
    (∀ job, patch.status = .null → (applyPatch patch job).status = job.status) ∧
    (∀ job, patch.scheduled_time = .null → (applyPatch patch job).scheduled_time = job.scheduled_time) ∧
    (∀ job, patch.start_time = .null → (applyPatch patch job).start_time = job.start_time) ∧
    (∀ job, patch.end_time = .null → (applyPatch patch job).end_time = job.end_time) ∧
    (∀ job, patch.notes = .null → (applyPatch patch job).notes = job.notes) := by
  refine ⟨?_, ?_, ?_, ?_, ?_, ?_, ?_, ?_⟩
  · cases hfind : findJob db jobId with
    | none => simp only [putJob, hfind]
    | some job =>
      simp only [putJob, hfind]
      rw [applyPatch_nullToAbsent,
        show (nullToAbsent patch).status = dropNull patch.status from rfl,
        show (nullToAbsent patch).notes = dropNull patch.notes from rfl,
        patchStatusIsCompleted_dropNull, patchNotesVal_dropNull]
  all_goals (intro job hnull; simp [applyPatch, coalesce, coalesceOpt, hnull])

/-- Witness for C10: the patch with null technician and notes behaves like
the same patch with those fields absent, and keeps the old values. -/
theorem nullPatchFieldTreatedAsOmittedWitness :
    putJob lifeDb 0 4 (nullToAbsent nullPatch) true = putJob lifeDb 0 4 nullPatch true ∧
    (applyPatch nullPatch lifeJob).technician_id = lifeJob.technician_id ∧
    (applyPatch nullPatch lifeJob).notes = lifeJob.notes := by
  have h := nullPatchFieldTreatedAsOmitted lifeDb 0 4 nullPatch true
  exact ⟨h.1, h.2.2.1 lifeJob (by decide), h.2.2.2.2.2.2.2 lifeJob (by decide)⟩

end ServiceBook
